import Mathlib

/-!
Verification of the mlmond-api-django dataset API.

Shallow embedding of the request-handling logic of the repository:
  * `app/dataset/views.py`   (DatasetViewSet, TagViewSet, IngredientViewSet)
  * `app/dataset/serializers.py` (DatasetSerializer and its nested
    get-or-create helpers, DatasetImageSerializer handling in the view)
  * `app/user/views.py`      (only the permission classes are relevant here)

The relational data model (`core/models.py` is not part of the sources at
hand; its shape is modelled from the specification, section 3) is embedded
as plain Lean structures, and the Django ORM operations the views use
(`filter`, `get_or_create`, `distinct`, `order_by`, many-to-many `add`,
`clear`) are given their standard SQL semantics over lists of rows.
-/

namespace Mlmond

/-- Modelled from the spec: a Tag row of `core.models.Tag` (the model file
is not among the sources) — `name` string plus a required owning user
foreign key; the row id is the primary key. -/
structure Tag where
  id : Nat
  userId : Nat
  name : String
deriving DecidableEq, Repr

/-- Modelled from the spec: an Ingredient row of `core.models.Ingredient`,
identical in shape to `Tag` but a disjoint table. -/
structure Ingredient where
  id : Nat
  userId : Nat
  name : String
deriving DecidableEq, Repr

/-- Modelled from the spec: a Dataset row of `core.models.Dataset` with its
scalar columns and its two many-to-many association sets, stored here as
the lists of associated Tag ids and Ingredient ids. -/
structure Dataset where
  id : Nat
  userId : Nat
  title : String
  timeMinutes : Nat
  price : Int
  link : String
  description : String
  image : Option String
  tags : List Nat
  ingredients : List Nat
deriving DecidableEq, Repr

/-- Modelled from the spec: the Entity Store — the three tables the dataset
app touches, plus the auto-increment counters for the Tag and Ingredient
primary keys. -/
structure DB where
  tags : List Tag
  ingredients : List Ingredient
  datasets : List Dataset
  nextTagId : Nat
  nextIngredientId : Nat
deriving DecidableEq, Repr

/-- HTTP methods used by the embedded endpoints. -/
inductive Method where
  | GET | POST | PUT | PATCH | DELETE
deriving DecidableEq, Repr

/-- HTTP response statuses used by the embedded endpoints.  An uncaught
Python exception in a view is surfaced by the framework as a server
error (500). -/
inductive HStatus where
  | ok200 | noContent204 | badRequest400 | unauthorized401 | notFound404 | serverError500
deriving DecidableEq, Repr

/-- Python `str.split(sep)` with a one-character separator, over the
character list of the string: every occurrence of `sep` cuts, so adjacent
separators and a leading/trailing separator produce empty segments, and
the empty string splits to one empty segment. -/
def pySplit (sep : Char) : List Char → List Char → List (List Char)
  | [], acc => [acc.reverse]
  | c :: rest, acc =>
      if c = sep then acc.reverse :: pySplit sep rest []
      else pySplit sep rest (c :: acc)

/-- Strip leading and trailing whitespace, as Python `int()` does before
parsing. -/
def pyStrip (l : List Char) : List Char :=
  ((l.dropWhile Char.isWhitespace).reverse.dropWhile Char.isWhitespace).reverse

/-- A non-empty all-digit character sequence read as a number; `none`
otherwise. -/
def parseDigits (l : List Char) : Option Nat :=
  if l.isEmpty then none
  else if l.all Char.isDigit then
    some (l.foldl (fun acc c => acc * 10 + (c.toNat - 48)) 0)
  else none

/-- Python `int(s)` on a string: optional surrounding whitespace, an
optional sign, then a non-empty digit string; anything else raises
`ValueError`, modelled as `none`.  (Python additionally accepts underscore
digit separators, which no request in scope uses.) -/
def pyParseIntChars (l : List Char) : Option Int :=
  match pyStrip l with
  | '-' :: rest => (parseDigits rest).map (fun n => -(n : Int))
  | '+' :: rest => (parseDigits rest).map (fun n => (n : Int))
  | t => (parseDigits t).map (fun n => (n : Int))

/-- Python `int(s)` for a whole string value. -/
def pyParseInt (s : String) : Option Int :=
  pyParseIntChars s.data

/-- Embeds `DatasetViewSet._params_to_ints` (views.py:42-44):
`[int(str_id) for str_id in qs.split(',')]`.  A non-numeric segment raises
`ValueError`, modelled as `none`. -/
def paramsToInts (qs : String) : Option (List Int) :=
  (pySplit ',' qs.data []).mapM pyParseIntChars

/-- Truthiness of an optional query-parameter string in Python:
`query_params.get(k)` is `None` when absent, and `if param:` is taken
exactly when the value is a non-empty string. -/
def truthyParam : Option String → Bool
  | none => false
  | some s => s ≠ ""

/-- SQL join semantics of `queryset.filter(tags__id__in=tag_ids)`
(views.py:52): the dataset table is joined against its tag association
rows, producing one result row per association entry whose tag id is in
`ids` — duplicates appear before `DISTINCT`. -/
def filterByTagIds (datasets : List Dataset) (ids : List Int) : List Dataset :=
  datasets.flatMap (fun d => (d.tags.filter (fun a => ids.contains (a : Int))).map (fun _ => d))

/-- SQL join semantics of `queryset.filter(ingredients__id__in=ingredient_ids)`
(views.py:55), symmetric to `filterByTagIds`. -/
def filterByIngredientIds (datasets : List Dataset) (ids : List Int) : List Dataset :=
  datasets.flatMap (fun d => (d.ingredients.filter (fun a => ids.contains (a : Int))).map (fun _ => d))

/-- Embeds `.order_by('-id').distinct()` on a dataset queryset: the SQL result is
the set of distinct rows, sorted by descending id. -/
def orderByIdDescDistinct (l : List Dataset) : List Dataset :=
  (l.dedup).insertionSort (fun a b => b.id ≤ a.id)

/-- The two conditional ID-list filter steps of
`DatasetViewSet.get_queryset` (views.py:48-56): apply the tag filter when
the `tags` parameter is truthy, then the ingredient filter when the
`ingredients` parameter is truthy.  `none` models an uncaught `ValueError`
raised by `_params_to_ints`. -/
def datasetFilteredQueryset (db : DB) (tagsParam ingredientsParam : Option String) :
    Option (List Dataset) := do
  let q1 ←
    if truthyParam tagsParam then do
      let ids ← paramsToInts (tagsParam.getD "")
      pure (filterByTagIds db.datasets ids)
    else pure db.datasets
  if truthyParam ingredientsParam then do
    let ids ← paramsToInts (ingredientsParam.getD "")
    pure (filterByIngredientIds q1 ids)
  else pure q1

/-- Embeds `DatasetViewSet.get_queryset` (views.py:46-63).  The request user is
`none` for an unauthenticated (anonymous) request: the filtered queryset,
returned unscoped (ordered and distinct) for a GET request, and filtered
to the requesting user otherwise. -/
def datasetGetQueryset (db : DB) (reqUser : Option Nat) (method : Method)
    (tagsParam ingredientsParam : Option String) : Option (List Dataset) :=
  match datasetFilteredQueryset db tagsParam ingredientsParam with
  | none => none
  | some q2 =>
      if method = Method.GET then some (orderByIdDescDistinct q2)
      else some (orderByIdDescDistinct (q2.filter (fun d => some d.userId == reqUser)))

/-- Embeds `DatasetViewSet.get_permissions` (views.py:90-94): an empty permission
list for GET requests, `IsAuthenticated` otherwise.  Returns whether the
permission check passes for the given resolved identity. -/
def datasetPermissionsOk (method : Method) (reqUser : Option Nat) : Bool :=
  if method = Method.GET then true else reqUser.isSome

/-- DRF `get_object` for the dataset viewset: look the pk up inside
`get_queryset()`; a miss is an `Http404`. -/
def datasetGetObject (db : DB) (reqUser : Option Nat) (method : Method)
    (pk : Nat) : Option (Option Dataset) := do
  let q ← datasetGetQueryset db reqUser method none none
  pure (q.find? (fun d => d.id == pk))

/-- The dataset list endpoint `GET /datasets/`: permission check, then
`get_queryset` with the two filter parameters; an uncaught `ValueError`
from a malformed parameter surfaces as a 500 server error. -/
def datasetList (db : DB) (reqUser : Option Nat)
    (tagsParam ingredientsParam : Option String) : HStatus × Option (List Dataset) :=
  if ¬ datasetPermissionsOk Method.GET reqUser then (HStatus.unauthorized401, none)
  else
    match datasetGetQueryset db reqUser Method.GET tagsParam ingredientsParam with
    | some l => (HStatus.ok200, some l)
    | none => (HStatus.serverError500, none)

/-- The dataset detail endpoint `GET /datasets/{pk}/` (ModelViewSet
retrieve): permission check, `get_object` in the GET queryset, 404 on a
miss. -/
def datasetRetrieve (db : DB) (reqUser : Option Nat) (pk : Nat) :
    HStatus × Option Dataset :=
  if ¬ datasetPermissionsOk Method.GET reqUser then (HStatus.unauthorized401, none)
  else
    match datasetGetObject db reqUser Method.GET pk with
    | some (some d) => (HStatus.ok200, some d)
    | some none => (HStatus.notFound404, none)
    | none => (HStatus.serverError500, none)

/-- Deleting a dataset row from the store. -/
def removeDataset (db : DB) (i : Nat) : DB :=
  { db with datasets := db.datasets.filter (fun d => d.id ≠ i) }

/-- Saving a dataset instance back to the store (row replaced by id). -/
def saveDataset (db : DB) (d : Dataset) : DB :=
  { db with datasets := db.datasets.map (fun x => if x.id = d.id then d else x) }

/-- The dataset delete endpoint `DELETE /datasets/{pk}/` (ModelViewSet
destroy): permission check, `get_object` in the user-scoped non-GET
queryset, 404 on a miss, 204 and row removal on a hit. -/
def datasetDestroy (db : DB) (reqUser : Option Nat) (pk : Nat) : HStatus × DB :=
  if ¬ datasetPermissionsOk Method.DELETE reqUser then (HStatus.unauthorized401, db)
  else
    match datasetGetObject db reqUser Method.DELETE pk with
    | some (some d) => (HStatus.noContent204, removeDataset db d.id)
    | some none => (HStatus.notFound404, db)
    | none => (HStatus.serverError500, db)

/-- Django many-to-many `add`: associating an already-associated id is a
no-op, otherwise the id joins the association set. -/
def mtmAdd (assoc : List Nat) (x : Nat) : List Nat :=
  if x ∈ assoc then assoc else assoc ++ [x]

/-- Embeds `Tag.objects.get_or_create(user=auth_user, name=n)`
(serializers.py:49): look up a Tag row with this owner and name; reuse it
if present, otherwise insert a fresh row with the next primary key. -/
def getOrCreateTag (db : DB) (u : Nat) (n : String) : Tag × DB :=
  match db.tags.find? (fun t => t.userId == u && t.name == n) with
  | some t => (t, db)
  | none =>
      let t : Tag := ⟨db.nextTagId, u, n⟩
      (t, { db with tags := db.tags ++ [t], nextTagId := db.nextTagId + 1 })

/-- Embeds `Ingredient.objects.get_or_create(user=auth_user, name=n)`
(serializers.py:58), symmetric to `getOrCreateTag`. -/
def getOrCreateIngredient (db : DB) (u : Nat) (n : String) : Ingredient × DB :=
  match db.ingredients.find? (fun t => t.userId == u && t.name == n) with
  | some t => (t, db)
  | none =>
      let t : Ingredient := ⟨db.nextIngredientId, u, n⟩
      (t, { db with ingredients := db.ingredients ++ [t],
                    nextIngredientId := db.nextIngredientId + 1 })

/-- Embeds `DatasetSerializer._get_or_create_tags` (serializers.py:45-52): for
each `{name}` record in input order, get-or-create the Tag for the
authenticated user and add it to the dataset's tag set. -/
def getOrCreateTags (db : DB) (u : Nat) (names : List String) (ds : Dataset) :
    Dataset × DB :=
  match names with
  | [] => (ds, db)
  | n :: rest =>
      let p := getOrCreateTag db u n
      getOrCreateTags p.2 u rest { ds with tags := mtmAdd ds.tags p.1.id }

/-- Embeds `DatasetSerializer._get_or_create_ingredients` (serializers.py:54-61),
symmetric to `getOrCreateTags`. -/
def getOrCreateIngredients (db : DB) (u : Nat) (names : List String) (ds : Dataset) :
    Dataset × DB :=
  match names with
  | [] => (ds, db)
  | n :: rest =>
      let p := getOrCreateIngredient db u n
      getOrCreateIngredients p.2 u rest { ds with ingredients := mtmAdd ds.ingredients p.1.id }

/-- A validated `DatasetSerializer` payload: every writable field is
optional (partial update); the nested tag/ingredient records carry only a
name, so the lists are lists of names.  `none` is exactly "field absent
from the payload". -/
structure DatasetPayload where
  title : Option String
  timeMinutes : Option Nat
  price : Option Int
  link : Option String
  description : Option String
  tags : Option (List String)
  ingredients : Option (List String)
deriving DecidableEq, Repr

/-- The `setattr` loop of `DatasetSerializer.update` (serializers.py:86-87)
over the remaining scalar fields of the validated data. -/
def applyScalars (d : Dataset) (p : DatasetPayload) : Dataset :=
  { d with
      title := p.title.getD d.title
      timeMinutes := p.timeMinutes.getD d.timeMinutes
      price := p.price.getD d.price
      link := p.link.getD d.link
      description := p.description.getD d.description }

/-- Embeds `DatasetSerializer.update` (serializers.py:75-90): pop `tags` and
`ingredients` with default `None`; when a list was supplied, clear the
association set and repopulate it through the get-or-create helper; then
set the remaining attributes and save. -/
def serializerUpdate (db : DB) (u : Nat) (inst : Dataset) (p : DatasetPayload) :
    Dataset × DB :=
  let s1 :=
    match p.tags with
    | none => (inst, db)
    | some l => getOrCreateTags db u l { inst with tags := [] }
  let s2 :=
    match p.ingredients with
    | none => s1
    | some l => getOrCreateIngredients s1.2 u l { s1.1 with ingredients := [] }
  let inst3 := applyScalars s2.1 p
  (inst3, saveDataset s2.2 inst3)

/-- The dataset update endpoint `PATCH /datasets/{pk}/` (ModelViewSet
partial update): permission check, `get_object` in the user-scoped non-GET
queryset (404 on a miss), then `DatasetSerializer.update`. -/
def datasetUpdateReq (db : DB) (reqUser : Option Nat) (pk : Nat)
    (p : DatasetPayload) : HStatus × DB :=
  if ¬ datasetPermissionsOk Method.PATCH reqUser then (HStatus.unauthorized401, db)
  else
    match reqUser, datasetGetObject db reqUser Method.PATCH pk with
    | some u, some (some d) => (HStatus.ok200, (serializerUpdate db u d p).2)
    | _, some none => (HStatus.notFound404, db)
    | _, some (some _) => (HStatus.notFound404, db)
    | _, none => (HStatus.serverError500, db)

/-- SQL join semantics of `Tag.objects.filter(dataset__isnull=False)`
(views.py:125): the tag table joined against the dataset-tag association
rows, one result row per dataset that references the tag. -/
def tagsAssignedJoin (tags : List Tag) (datasets : List Dataset) : List Tag :=
  tags.flatMap (fun t => (datasets.filter (fun d => t.id ∈ d.tags)).map (fun _ => t))

/-- SQL join semantics of `Ingredient.objects.filter(dataset__isnull=False)`
(views.py:158), symmetric to `tagsAssignedJoin`. -/
def ingredientsAssignedJoin (ings : List Ingredient) (datasets : List Dataset) : List Ingredient :=
  ings.flatMap (fun t => (datasets.filter (fun d => t.id ∈ d.ingredients)).map (fun _ => t))

/-- Embeds `int(self.request.query_params.get('assigned_only', 0))`
(views.py:121-122, 154-155): the default `0` when the parameter is absent,
`int(...)` parsing of the string otherwise (`none` models the raised
`ValueError`). -/
def assignedOnlyInt : Option String → Option Int
  | none => some 0
  | some s => pyParseInt s

/-- Lexicographic strict comparison of strings as character lists — the
ordering of the name column used by `order_by('-name')`. -/
def charListLt : List Char → List Char → Bool
  | [], [] => false
  | [], _ :: _ => true
  | _ :: _, [] => false
  | a :: as, b :: bs =>
      if a < b then true else if b < a then false else charListLt as bs

/-- Embeds `.order_by('-name').distinct()` on a tag queryset: distinct rows in
descending name order. -/
def tagOrderByNameDescDistinct (l : List Tag) : List Tag :=
  (l.dedup).insertionSort (fun a b => charListLt a.name.data b.name.data = false)

/-- Embeds `.order_by('-name').distinct()` on an ingredient queryset. -/
def ingredientOrderByNameDescDistinct (l : List Ingredient) : List Ingredient :=
  (l.dedup).insertionSort (fun a b => charListLt a.name.data b.name.data = false)

/-- Embeds `TagViewSet.get_queryset` (views.py:119-127): parse `assigned_only`
(default 0), restrict to assigned tags when truthy, then filter to the
requesting user, order by descending name, distinct. -/
def tagGetQueryset (db : DB) (reqUser : Option Nat) (assignedParam : Option String) :
    Option (List Tag) := do
  let n ← assignedOnlyInt assignedParam
  let q := if n ≠ 0 then tagsAssignedJoin db.tags db.datasets else db.tags
  pure (tagOrderByNameDescDistinct (q.filter (fun t => some t.userId == reqUser)))

/-- Embeds `IngredientViewSet.get_queryset` (views.py:152-160), symmetric to
`tagGetQueryset`. -/
def ingredientGetQueryset (db : DB) (reqUser : Option Nat) (assignedParam : Option String) :
    Option (List Ingredient) := do
  let n ← assignedOnlyInt assignedParam
  let q := if n ≠ 0 then ingredientsAssignedJoin db.ingredients db.datasets else db.ingredients
  pure (ingredientOrderByNameDescDistinct (q.filter (fun t => some t.userId == reqUser)))

/-- The tag list endpoint `GET /tags/`: `permission_classes =
[IsAuthenticated]` (views.py:117), then `get_queryset`. -/
def tagList (db : DB) (reqUser : Option Nat) (assignedParam : Option String) :
    HStatus × Option (List Tag) :=
  match reqUser with
  | none => (HStatus.unauthorized401, none)
  | some _ =>
      match tagGetQueryset db reqUser assignedParam with
      | some l => (HStatus.ok200, some l)
      | none => (HStatus.serverError500, none)

/-- The ingredient list endpoint `GET /ingredients/`, symmetric to
`tagList`. -/
def ingredientList (db : DB) (reqUser : Option Nat) (assignedParam : Option String) :
    HStatus × Option (List Ingredient) :=
  match reqUser with
  | none => (HStatus.unauthorized401, none)
  | some _ =>
      match ingredientGetQueryset db reqUser assignedParam with
      | some l => (HStatus.ok200, some l)
      | none => (HStatus.serverError500, none)

/-- The tag delete endpoint `DELETE /tags/{pk}/` (DestroyModelMixin):
`IsAuthenticated`, `get_object` in the user-scoped queryset, 404 on a
miss, 204 and row removal on a hit. -/
def tagDestroy (db : DB) (reqUser : Option Nat) (pk : Nat) : HStatus × DB :=
  match reqUser with
  | none => (HStatus.unauthorized401, db)
  | some _ =>
      match tagGetQueryset db reqUser none with
      | some l =>
          match l.find? (fun t => t.id == pk) with
          | some t => (HStatus.noContent204,
              { db with tags := db.tags.filter (fun x => x.id ≠ t.id) })
          | none => (HStatus.notFound404, db)
      | none => (HStatus.serverError500, db)

/-- The tag update endpoint `PATCH /tags/{pk}/` (UpdateModelMixin): the
serializer's only writable field is `name`.  404 on a miss in the
user-scoped queryset. -/
def tagUpdateReq (db : DB) (reqUser : Option Nat) (pk : Nat) (newName : String) :
    HStatus × DB :=
  match reqUser with
  | none => (HStatus.unauthorized401, db)
  | some _ =>
      match tagGetQueryset db reqUser none with
      | some l =>
          match l.find? (fun t => t.id == pk) with
          | some t => (HStatus.ok200,
              { db with tags := db.tags.map (fun x =>
                  if x.id = t.id then { x with name := newName } else x) })
          | none => (HStatus.notFound404, db)
      | none => (HStatus.serverError500, db)

/-- The ingredient delete endpoint `DELETE /ingredients/{pk}/`, symmetric
to `tagDestroy`. -/
def ingredientDestroy (db : DB) (reqUser : Option Nat) (pk : Nat) : HStatus × DB :=
  match reqUser with
  | none => (HStatus.unauthorized401, db)
  | some _ =>
      match ingredientGetQueryset db reqUser none with
      | some l =>
          match l.find? (fun t => t.id == pk) with
          | some t => (HStatus.noContent204,
              { db with ingredients := db.ingredients.filter (fun x => x.id ≠ t.id) })
          | none => (HStatus.notFound404, db)
      | none => (HStatus.serverError500, db)

/-- Embeds `DatasetViewSet.upload_image` (views.py:78-88): `get_object` in the
POST (user-scoped) queryset, then the `DatasetImageSerializer` round:
`is_valid()` → save and 200 with the serializer data (`id` and the stored
image reference), else 400 with no write.  The decodability test performed
by the framework's `ImageField` is not part of the sources; it is taken as
the abstract predicate `decodable` (modelled from the spec: "validates
that the payload is a decodable image"). -/
def uploadImage (decodable : String → Bool) (db : DB) (reqUser : Option Nat)
    (pk : Nat) (payload : String) : HStatus × Option (Nat × Option String) × DB :=
  if ¬ datasetPermissionsOk Method.POST reqUser then (HStatus.unauthorized401, none, db)
  else
    match datasetGetObject db reqUser Method.POST pk with
    | some (some d) =>
        if decodable payload then
          let d2 := { d with image := some payload }
          (HStatus.ok200, some (d2.id, d2.image), saveDataset db d2)
        else (HStatus.badRequest400, none, db)
    | some none => (HStatus.notFound404, none, db)
    | none => (HStatus.serverError500, none, db)

/-! ### Well-formedness of the Tag and Ingredient tables -/

/-- The Tag rows of owner `u` with name `n`. -/
def tagRows (db : DB) (u : Nat) (n : String) : List Tag :=
  db.tags.filter (fun t => t.userId == u && t.name == n)

/-- The Ingredient rows of owner `u` with name `n`. -/
def ingredientRows (db : DB) (u : Nat) (n : String) : List Ingredient :=
  db.ingredients.filter (fun t => t.userId == u && t.name == n)

/-- Per-owner name-uniqueness of the Tag table — the invariant the
get-or-create discipline maintains (spec section 3). -/
def TagsWF (db : DB) : Prop :=
  db.tags.Pairwise (fun a b => a.userId ≠ b.userId ∨ a.name ≠ b.name)

/-- Per-owner name-uniqueness of the Ingredient table. -/
def IngredientsWF (db : DB) : Prop :=
  db.ingredients.Pairwise (fun a b => a.userId ≠ b.userId ∨ a.name ≠ b.name)

instance (db : DB) : Decidable (TagsWF db) := by
  unfold TagsWF
  infer_instance

instance (db : DB) : Decidable (IngredientsWF db) := by
  unfold IngredientsWF
  infer_instance

/-- The fresh Tag row inserted when a get-or-create lookup misses. -/
def newTag (db : DB) (u : Nat) (n : String) : Tag :=
  ⟨db.nextTagId, u, n⟩

/-- The store after inserting the fresh Tag row. -/
def insertTag (db : DB) (u : Nat) (n : String) : DB :=
  { db with tags := db.tags ++ [newTag db u n], nextTagId := db.nextTagId + 1 }

/-- The fresh Ingredient row inserted when a get-or-create lookup misses. -/
def newIngredient (db : DB) (u : Nat) (n : String) : Ingredient :=
  ⟨db.nextIngredientId, u, n⟩

/-- The store after inserting the fresh Ingredient row. -/
def insertIngredient (db : DB) (u : Nat) (n : String) : DB :=
  { db with ingredients := db.ingredients ++ [newIngredient db u n],
            nextIngredientId := db.nextIngredientId + 1 }

/-- Relates an optional ID-list parameter string to its parsed value: the
parameter is either absent or a non-empty string every segment of which
parses as an integer (the well-formed inputs of claim C6). -/
def parsedParam : Option String → Option (List Int) → Prop
  | none, none => True
  | some s, some ids => s ≠ "" ∧ paramsToInts s = some ids
  | none, some _ => False
  | some _, none => False

/-- The ID-set intersection condition of the spec, relative to an optional
parsed parameter: no restriction when the parameter is absent, otherwise
the association set must intersect the parsed ID set. -/
def matchesOptParam (assoc : List Nat) : Option (List Int) → Prop
  | none => True
  | some ids => ∃ a ∈ assoc, (a : Int) ∈ ids

/-- The tag restriction induced by an optional parsed ID list: identity
when absent, the tag-join filter otherwise. -/
def optFilterTags (l : List Dataset) : Option (List Int) → List Dataset
  | none => l
  | some ids => filterByTagIds l ids

/-- The ingredient restriction induced by an optional parsed ID list. -/
def optFilterIngredients (l : List Dataset) : Option (List Int) → List Dataset
  | none => l
  | some ids => filterByIngredientIds l ids

/-! ### Concrete fixtures used to evaluate the endpoints -/

/-- A sample decodability test for image payloads. -/
def exDecodable : String → Bool := fun s => s == "img-bytes"

/-- A dataset owned by user 2, carrying tag 4 and ingredient 7. -/
def dsOfUser2 : Dataset := ⟨10, 2, "Dataset of B", 5, 3, "", "", none, [4], [7]⟩

/-- A tag owned by user 2. -/
def tagOfUser2 : Tag := ⟨4, 2, "B tag"⟩

/-- An ingredient owned by user 2. -/
def ingredientOfUser2 : Ingredient := ⟨7, 2, "B ing"⟩

/-- A store where everything belongs to user 2; user 1 owns nothing. -/
def exDB : DB := ⟨[tagOfUser2], [ingredientOfUser2], [dsOfUser2], 5, 8⟩

def exDs1 : Dataset := ⟨1, 1, "R1", 5, 3, "", "", none, [1], [9]⟩

def exDs2 : Dataset := ⟨2, 1, "R2", 5, 3, "", "", none, [1, 2], [9]⟩

/-- An untagged dataset. -/
def exDs3 : Dataset := ⟨3, 1, "R3", 5, 3, "", "", none, [], []⟩

/-- A store of user 1 where tag 1 is attached to two datasets and dataset 3
carries no tags. -/
def exDB2 : DB := ⟨[⟨1, 1, "Vegan"⟩, ⟨2, 1, "Spicy"⟩], [⟨9, 1, "Salt"⟩],
  [exDs1, exDs2, exDs3], 3, 10⟩

/-- A validated payload with every field absent. -/
def emptyPayload : DatasetPayload := ⟨none, none, none, none, none, none, none⟩

/-- The store after the tags step of `DatasetSerializer.update`: unchanged
when the tags field is absent from the payload, otherwise the store
returned by the tag resolver run against the cleared instance. -/
def tagsStepDB (db : DB) (u : Nat) (inst : Dataset) : Option (List String) → DB
  | none => db
  | some lt => (getOrCreateTags db u lt { inst with tags := [] }).2

theorem length_le_one_of_pairwise {α : Type} {r : α → α → Prop} {l : List α}
    (hp : l.Pairwise r) (h : ∀ a ∈ l, ∀ b ∈ l, ¬ r a b) : l.length ≤ 1 := by
  cases hp with
  | nil => simp
  | cons hab htail =>
    rename_i a t
    cases t with
    | nil => simp
    | cons b t2 =>
      exact absurd (hab b (by simp)) (h a (by simp) b (by simp))

theorem eq_singleton_of_length_le_one {α : Type} {l : List α} {t : α}
    (h1 : l.length ≤ 1) (h2 : t ∈ l) : l = [t] := by
  cases l with
  | nil => cases h2
  | cons a t2 =>
    cases t2 with
    | nil =>
      have : t = a := by simpa using h2
      rw [this]
    | cons b t3 => simp at h1

/-! ### get-or-create: Tag side -/

theorem getOrCreateTag_eq_found {db : DB} {u : Nat} {n : String} {t : Tag}
    (hfind : db.tags.find? (fun x => x.userId == u && x.name == n) = some t) :
    getOrCreateTag db u n = (t, db) := by
  unfold getOrCreateTag
  rw [hfind]

theorem getOrCreateTag_eq_new {db : DB} {u : Nat} {n : String}
    (hfind : db.tags.find? (fun x => x.userId == u && x.name == n) = none) :
    getOrCreateTag db u n = (newTag db u n, insertTag db u n) := by
  unfold getOrCreateTag
  rw [hfind]
  rfl

theorem tagRows_insertTag_self {db : DB} {u : Nat} {n : String}
    (hfind : db.tags.find? (fun x => x.userId == u && x.name == n) = none) :
    tagRows (insertTag db u n) u n = [newTag db u n] := by
  have hempty : tagRows db u n = [] := by
    rw [tagRows, List.filter_eq_nil_iff]
    intro x hx
    simpa using List.find?_eq_none.mp hfind x hx
  rw [tagRows] at hempty ⊢
  simp only [insertTag, List.filter_append, hempty, List.nil_append]
  simp [newTag]

theorem getOrCreateTag_rows {db : DB} {u : Nat} {n : String} (hwf : TagsWF db) :
    tagRows (getOrCreateTag db u n).2 u n = [(getOrCreateTag db u n).1] := by
  cases hfind : db.tags.find? (fun x => x.userId == u && x.name == n) with
  | some t =>
    rw [getOrCreateTag_eq_found hfind]
    have hp := List.find?_some hfind
    have hm := List.mem_of_find?_eq_some hfind
    have hmem : t ∈ tagRows db u n := List.mem_filter.mpr ⟨hm, hp⟩
    have hpair : (tagRows db u n).Pairwise (fun a b => a.userId ≠ b.userId ∨ a.name ≠ b.name) :=
      List.Pairwise.filter _ hwf
    have hle : (tagRows db u n).length ≤ 1 := by
      refine length_le_one_of_pairwise hpair ?_
      intro a ha b hb hr
      have ha2 := (List.mem_filter.mp ha).2
      have hb2 := (List.mem_filter.mp hb).2
      simp only [Bool.and_eq_true, beq_iff_eq] at ha2 hb2
      rcases hr with h | h
      · exact h (ha2.1.trans hb2.1.symm)
      · exact h (ha2.2.trans hb2.2.symm)
    exact eq_singleton_of_length_le_one hle hmem
  | none =>
    rw [getOrCreateTag_eq_new hfind]
    exact tagRows_insertTag_self hfind

theorem getOrCreateTag_wf {db : DB} {u : Nat} {n : String} (hwf : TagsWF db) :
    TagsWF (getOrCreateTag db u n).2 := by
  cases hfind : db.tags.find? (fun x => x.userId == u && x.name == n) with
  | some t =>
    rw [getOrCreateTag_eq_found hfind]
    exact hwf
  | none =>
    rw [getOrCreateTag_eq_new hfind]
    have : (insertTag db u n).tags = db.tags ++ [newTag db u n] := rfl
    rw [TagsWF, this, List.pairwise_append]
    refine ⟨hwf, by simp, ?_⟩
    intro a ha b hb
    have hnm := List.find?_eq_none.mp hfind a ha
    simp only [Bool.and_eq_true, beq_iff_eq, not_and] at hnm
    simp only [List.mem_singleton] at hb
    subst hb
    by_cases hu : a.userId = u
    · exact Or.inr (by simpa [newTag] using hnm hu)
    · exact Or.inl (by simpa [newTag] using hu)

theorem getOrCreateTag_rows_stable {db : DB} {u u' : Nat} {n n' : String} {t : Tag}
    (h : tagRows db u' n' = [t]) :
    tagRows (getOrCreateTag db u n).2 u' n' = [t] := by
  cases hfind : db.tags.find? (fun x => x.userId == u && x.name == n) with
  | some x =>
    rw [getOrCreateTag_eq_found hfind]
    exact h
  | none =>
    rw [getOrCreateTag_eq_new hfind]
    rw [tagRows] at h
    rw [tagRows, insertTag]
    simp only [List.filter_append]
    by_cases hc : u = u' ∧ n = n'
    · exfalso
      obtain ⟨rfl, rfl⟩ := hc
      have ht : t ∈ db.tags.filter (fun x => x.userId == u && x.name == n) := by
        rw [h]; simp
      have := List.find?_eq_none.mp hfind t (List.mem_filter.mp ht).1
      exact this (List.mem_filter.mp ht).2
    · have hfalse : ((newTag db u n).userId == u' && (newTag db u n).name == n') = false := by
        simp only [newTag, Bool.and_eq_false_iff, beq_eq_false_iff_ne, ne_eq]
        by_cases hu : u = u'
        · exact Or.inr (fun hn => hc ⟨hu, hn⟩)
        · exact Or.inl hu
      simp [List.filter, hfalse, h]

theorem mtmAdd_mem_self (assoc : List Nat) (x : Nat) : x ∈ mtmAdd assoc x := by
  rw [mtmAdd]
  by_cases h : x ∈ assoc <;> simp [h]

theorem mtmAdd_mem_of_mem {assoc : List Nat} {x : Nat} (y : Nat) (h : x ∈ assoc) :
    x ∈ mtmAdd assoc y := by
  rw [mtmAdd]
  by_cases hy : y ∈ assoc <;> simp [hy, h]

theorem getOrCreateTags_cons (db : DB) (u : Nat) (n : String) (rest : List String)
    (ds : Dataset) :
    getOrCreateTags db u (n :: rest) ds =
      getOrCreateTags (getOrCreateTag db u n).2 u rest
        { ds with tags := mtmAdd ds.tags (getOrCreateTag db u n).1.id } := rfl

theorem getOrCreateTags_wf {names : List String} {db : DB} {u : Nat} {ds : Dataset}
    (hwf : TagsWF db) : TagsWF (getOrCreateTags db u names ds).2 := by
  induction names generalizing db ds with
  | nil => exact hwf
  | cons n rest ih =>
    rw [getOrCreateTags_cons]
    exact ih (getOrCreateTag_wf hwf)

theorem getOrCreateTags_rows_stable {names : List String} {db : DB} {u u' : Nat}
    {n' : String} {t : Tag} {ds : Dataset} (h : tagRows db u' n' = [t]) :
    tagRows (getOrCreateTags db u names ds).2 u' n' = [t] := by
  induction names generalizing db ds with
  | nil => exact h
  | cons n rest ih =>
    rw [getOrCreateTags_cons]
    exact ih (getOrCreateTag_rows_stable h)

theorem getOrCreateTags_assoc_mono {names : List String} {db : DB} {u : Nat}
    {ds : Dataset} {x : Nat} (h : x ∈ ds.tags) :
    x ∈ (getOrCreateTags db u names ds).1.tags := by
  induction names generalizing db ds with
  | nil => exact h
  | cons n rest ih =>
    rw [getOrCreateTags_cons]
    exact ih (mtmAdd_mem_of_mem _ h)

/-- After running the tag resolver, every name of the input list has
exactly one Tag row for the requesting owner, and that row is attached to
the dataset. -/
theorem getOrCreateTags_resolves {names : List String} {db : DB} {u : Nat}
    {ds : Dataset} {n : String} (hwf : TagsWF db) (hn : n ∈ names) :
    ∃ t : Tag, tagRows (getOrCreateTags db u names ds).2 u n = [t] ∧
      t.id ∈ (getOrCreateTags db u names ds).1.tags := by
  induction names generalizing db ds with
  | nil => cases hn
  | cons m rest ih =>
    rw [getOrCreateTags_cons]
    rcases List.mem_cons.mp hn with rfl | hn2
    · refine ⟨(getOrCreateTag db u n).1, ?_, ?_⟩
      · exact getOrCreateTags_rows_stable (getOrCreateTag_rows hwf)
      · exact getOrCreateTags_assoc_mono (mtmAdd_mem_self _ _)
    · exact ih (getOrCreateTag_wf hwf) hn2

/-- When the (owner, name) row already exists, get-or-create is a pure
lookup: the store is returned unchanged with the existing row. -/
theorem getOrCreateTag_of_rows {db : DB} {u : Nat} {n : String} {t : Tag}
    (h : tagRows db u n = [t]) : getOrCreateTag db u n = (t, db) := by
  have hmem : t ∈ tagRows db u n := by rw [h]; simp
  have hfl := List.mem_filter.mp hmem
  have hsome : (db.tags.find? (fun x => x.userId == u && x.name == n)).isSome :=
    List.find?_isSome.mpr ⟨t, hfl.1, hfl.2⟩
  obtain ⟨x, hx⟩ := Option.isSome_iff_exists.mp hsome
  have hpx : (x.userId == u && x.name == n) = true :=
    List.find?_some (p := fun y : Tag => y.userId == u && y.name == n) hx
  have hxmem : x ∈ tagRows db u n :=
    List.mem_filter.mpr ⟨List.mem_of_find?_eq_some hx, hpx⟩
  rw [h] at hxmem
  simp only [List.mem_singleton] at hxmem
  subst hxmem
  exact getOrCreateTag_eq_found hx

theorem getOrCreateTags_second {db : DB} {u : Nat} {n : String} {t : Tag}
    (ds2 : Dataset) (h : tagRows db u n = [t]) :
    getOrCreateTags db u [n] ds2 = ({ ds2 with tags := mtmAdd ds2.tags t.id }, db) := by
  rw [getOrCreateTags_cons, getOrCreateTag_of_rows h]
  rfl

/-! ### get-or-create: Ingredient side (mirror of the Tag lemmas) -/

theorem getOrCreateIngredient_eq_found {db : DB} {u : Nat} {n : String} {t : Ingredient}
    (hfind : db.ingredients.find? (fun x => x.userId == u && x.name == n) = some t) :
    getOrCreateIngredient db u n = (t, db) := by
  unfold getOrCreateIngredient
  rw [hfind]

theorem getOrCreateIngredient_eq_new {db : DB} {u : Nat} {n : String}
    (hfind : db.ingredients.find? (fun x => x.userId == u && x.name == n) = none) :
    getOrCreateIngredient db u n = (newIngredient db u n, insertIngredient db u n) := by
  unfold getOrCreateIngredient
  rw [hfind]
  rfl

theorem ingredientRows_insert_self {db : DB} {u : Nat} {n : String}
    (hfind : db.ingredients.find? (fun x => x.userId == u && x.name == n) = none) :
    ingredientRows (insertIngredient db u n) u n = [newIngredient db u n] := by
  have hempty : ingredientRows db u n = [] := by
    rw [ingredientRows, List.filter_eq_nil_iff]
    intro x hx
    simpa using List.find?_eq_none.mp hfind x hx
  rw [ingredientRows] at hempty ⊢
  simp only [insertIngredient, List.filter_append, hempty, List.nil_append]
  simp [newIngredient]

theorem getOrCreateIngredient_rows {db : DB} {u : Nat} {n : String}
    (hwf : IngredientsWF db) :
    ingredientRows (getOrCreateIngredient db u n).2 u n = [(getOrCreateIngredient db u n).1] := by
  cases hfind : db.ingredients.find? (fun x => x.userId == u && x.name == n) with
  | some t =>
    rw [getOrCreateIngredient_eq_found hfind]
    have hp := List.find?_some hfind
    have hm := List.mem_of_find?_eq_some hfind
    have hmem : t ∈ ingredientRows db u n := List.mem_filter.mpr ⟨hm, hp⟩
    have hpair : (ingredientRows db u n).Pairwise
        (fun a b => a.userId ≠ b.userId ∨ a.name ≠ b.name) :=
      List.Pairwise.filter _ hwf
    have hle : (ingredientRows db u n).length ≤ 1 := by
      refine length_le_one_of_pairwise hpair ?_
      intro a ha b hb hr
      have ha2 := (List.mem_filter.mp ha).2
      have hb2 := (List.mem_filter.mp hb).2
      simp only [Bool.and_eq_true, beq_iff_eq] at ha2 hb2
      rcases hr with h | h
      · exact h (ha2.1.trans hb2.1.symm)
      · exact h (ha2.2.trans hb2.2.symm)
    exact eq_singleton_of_length_le_one hle hmem
  | none =>
    rw [getOrCreateIngredient_eq_new hfind]
    exact ingredientRows_insert_self hfind

theorem getOrCreateIngredient_wf {db : DB} {u : Nat} {n : String}
    (hwf : IngredientsWF db) : IngredientsWF (getOrCreateIngredient db u n).2 := by
  cases hfind : db.ingredients.find? (fun x => x.userId == u && x.name == n) with
  | some t =>
    rw [getOrCreateIngredient_eq_found hfind]
    exact hwf
  | none =>
    rw [getOrCreateIngredient_eq_new hfind]
    have : (insertIngredient db u n).ingredients = db.ingredients ++ [newIngredient db u n] := rfl
    rw [IngredientsWF, this, List.pairwise_append]
    refine ⟨hwf, by simp, ?_⟩
    intro a ha b hb
    have hnm := List.find?_eq_none.mp hfind a ha
    simp only [Bool.and_eq_true, beq_iff_eq, not_and] at hnm
    simp only [List.mem_singleton] at hb
    subst hb
    by_cases hu : a.userId = u
    · exact Or.inr (by simpa [newIngredient] using hnm hu)
    · exact Or.inl (by simpa [newIngredient] using hu)

theorem getOrCreateIngredient_rows_stable {db : DB} {u u' : Nat} {n n' : String}
    {t : Ingredient} (h : ingredientRows db u' n' = [t]) :
    ingredientRows (getOrCreateIngredient db u n).2 u' n' = [t] := by
  cases hfind : db.ingredients.find? (fun x => x.userId == u && x.name == n) with
  | some x =>
    rw [getOrCreateIngredient_eq_found hfind]
    exact h
  | none =>
    rw [getOrCreateIngredient_eq_new hfind]
    rw [ingredientRows] at h
    rw [ingredientRows, insertIngredient]
    simp only [List.filter_append]
    by_cases hc : u = u' ∧ n = n'
    · exfalso
      obtain ⟨rfl, rfl⟩ := hc
      have ht : t ∈ db.ingredients.filter (fun x => x.userId == u && x.name == n) := by
        rw [h]; simp
      have := List.find?_eq_none.mp hfind t (List.mem_filter.mp ht).1
      exact this (List.mem_filter.mp ht).2
    · have hfalse : ((newIngredient db u n).userId == u'
          && (newIngredient db u n).name == n') = false := by
        simp only [newIngredient, Bool.and_eq_false_iff, beq_eq_false_iff_ne, ne_eq]
        by_cases hu : u = u'
        · exact Or.inr (fun hn => hc ⟨hu, hn⟩)
        · exact Or.inl hu
      simp [List.filter, hfalse, h]

theorem getOrCreateIngredients_cons (db : DB) (u : Nat) (n : String)
    (rest : List String) (ds : Dataset) :
    getOrCreateIngredients db u (n :: rest) ds =
      getOrCreateIngredients (getOrCreateIngredient db u n).2 u rest
        { ds with ingredients := mtmAdd ds.ingredients (getOrCreateIngredient db u n).1.id } := rfl

theorem getOrCreateIngredients_wf {names : List String} {db : DB} {u : Nat}
    {ds : Dataset} (hwf : IngredientsWF db) :
    IngredientsWF (getOrCreateIngredients db u names ds).2 := by
  induction names generalizing db ds with
  | nil => exact hwf
  | cons n rest ih =>
    rw [getOrCreateIngredients_cons]
    exact ih (getOrCreateIngredient_wf hwf)

theorem getOrCreateIngredients_rows_stable {names : List String} {db : DB}
    {u u' : Nat} {n' : String} {t : Ingredient} {ds : Dataset}
    (h : ingredientRows db u' n' = [t]) :
    ingredientRows (getOrCreateIngredients db u names ds).2 u' n' = [t] := by
  induction names generalizing db ds with
  | nil => exact h
  | cons n rest ih =>
    rw [getOrCreateIngredients_cons]
    exact ih (getOrCreateIngredient_rows_stable h)

theorem getOrCreateIngredients_assoc_mono {names : List String} {db : DB} {u : Nat}
    {ds : Dataset} {x : Nat} (h : x ∈ ds.ingredients) :
    x ∈ (getOrCreateIngredients db u names ds).1.ingredients := by
  induction names generalizing db ds with
  | nil => exact h
  | cons n rest ih =>
    rw [getOrCreateIngredients_cons]
    exact ih (mtmAdd_mem_of_mem _ h)

/-- Mirror of `getOrCreateTags_resolves` for ingredients. -/
theorem getOrCreateIngredients_resolves {names : List String} {db : DB} {u : Nat}
    {ds : Dataset} {n : String} (hwf : IngredientsWF db) (hn : n ∈ names) :
    ∃ t : Ingredient, ingredientRows (getOrCreateIngredients db u names ds).2 u n = [t] ∧
      t.id ∈ (getOrCreateIngredients db u names ds).1.ingredients := by
  induction names generalizing db ds with
  | nil => cases hn
  | cons m rest ih =>
    rw [getOrCreateIngredients_cons]
    rcases List.mem_cons.mp hn with rfl | hn2
    · refine ⟨(getOrCreateIngredient db u n).1, ?_, ?_⟩
      · exact getOrCreateIngredients_rows_stable (getOrCreateIngredient_rows hwf)
      · exact getOrCreateIngredients_assoc_mono (mtmAdd_mem_self _ _)
    · exact ih (getOrCreateIngredient_wf hwf) hn2

theorem getOrCreateIngredient_of_rows {db : DB} {u : Nat} {n : String} {t : Ingredient}
    (h : ingredientRows db u n = [t]) : getOrCreateIngredient db u n = (t, db) := by
  have hmem : t ∈ ingredientRows db u n := by rw [h]; simp
  have hfl := List.mem_filter.mp hmem
  have hsome : (db.ingredients.find? (fun x => x.userId == u && x.name == n)).isSome :=
    List.find?_isSome.mpr ⟨t, hfl.1, hfl.2⟩
  obtain ⟨x, hx⟩ := Option.isSome_iff_exists.mp hsome
  have hpx : (x.userId == u && x.name == n) = true :=
    List.find?_some (p := fun y : Ingredient => y.userId == u && y.name == n) hx
  have hxmem : x ∈ ingredientRows db u n :=
    List.mem_filter.mpr ⟨List.mem_of_find?_eq_some hx, hpx⟩
  rw [h] at hxmem
  simp only [List.mem_singleton] at hxmem
  subst hxmem
  exact getOrCreateIngredient_eq_found hx

theorem getOrCreateIngredients_second {db : DB} {u : Nat} {n : String} {t : Ingredient}
    (ds2 : Dataset) (h : ingredientRows db u n = [t]) :
    getOrCreateIngredients db u [n] ds2
      = ({ ds2 with ingredients := mtmAdd ds2.ingredients t.id }, db) := by
  rw [getOrCreateIngredients_cons, getOrCreateIngredient_of_rows h]
  rfl

/-! ### Claim C2 -/

/-- C2: resolving the same name twice for one owner — as duplicate entries
in one request's tag/ingredient list, or across two sequential requests —
results in exactly one Tag (resp. Ingredient) row with that owner and
name; every resolution attaches that same row to the target dataset, and
the second request leaves the store completely unchanged. -/
theorem get_or_create_idempotent_per_owner
    (db : DB) (u : Nat) (n : String) (ds ds2 : Dataset)
    (hwf : TagsWF db) (hwfi : IngredientsWF db) :
    (∃ t : Tag,
       tagRows (getOrCreateTags db u [n, n] ds).2 u n = [t] ∧
       t.id ∈ (getOrCreateTags db u [n, n] ds).1.tags ∧
       getOrCreateTags (getOrCreateTags db u [n, n] ds).2 u [n] ds2
         = ({ ds2 with tags := mtmAdd ds2.tags t.id },
            (getOrCreateTags db u [n, n] ds).2)) ∧
    (∃ t : Ingredient,
       ingredientRows (getOrCreateIngredients db u [n, n] ds).2 u n = [t] ∧
       t.id ∈ (getOrCreateIngredients db u [n, n] ds).1.ingredients ∧
       getOrCreateIngredients (getOrCreateIngredients db u [n, n] ds).2 u [n] ds2
         = ({ ds2 with ingredients := mtmAdd ds2.ingredients t.id },
            (getOrCreateIngredients db u [n, n] ds).2)) := by
  constructor
  · obtain ⟨t, hrows, hatt⟩ :=
      @getOrCreateTags_resolves [n, n] db u ds n hwf (by simp)
    exact ⟨t, hrows, hatt, getOrCreateTags_second ds2 hrows⟩
  · obtain ⟨t, hrows, hatt⟩ :=
      @getOrCreateIngredients_resolves [n, n] db u ds n hwfi (by simp)
    exact ⟨t, hrows, hatt, getOrCreateIngredients_second ds2 hrows⟩

/-- Witness for C2 at a concrete store, name and owner. -/
theorem get_or_create_idempotent_per_owner_witness :
    TagsWF exDB ∧ IngredientsWF exDB ∧
    (∃ t : Tag,
       tagRows (getOrCreateTags exDB 1 ["Vegan", "Vegan"] dsOfUser2).2 1 "Vegan" = [t] ∧
       t.id ∈ (getOrCreateTags exDB 1 ["Vegan", "Vegan"] dsOfUser2).1.tags ∧
       getOrCreateTags (getOrCreateTags exDB 1 ["Vegan", "Vegan"] dsOfUser2).2 1 ["Vegan"] exDs3
         = ({ exDs3 with tags := mtmAdd exDs3.tags t.id },
            (getOrCreateTags exDB 1 ["Vegan", "Vegan"] dsOfUser2).2)) :=
  ⟨by decide, by decide,
   (get_or_create_idempotent_per_owner exDB 1 "Vegan" dsOfUser2 exDs3
      (by decide) (by decide)).1⟩

/-! ### Claim C3 -/

theorem getOrCreateTags_ingredients_eq {names : List String} {db : DB} {u : Nat}
    {ds : Dataset} : (getOrCreateTags db u names ds).1.ingredients = ds.ingredients := by
  induction names generalizing db ds with
  | nil => rfl
  | cons n rest ih =>
    rw [getOrCreateTags_cons]
    exact ih

theorem getOrCreateIngredients_tags_eq {names : List String} {db : DB} {u : Nat}
    {ds : Dataset} : (getOrCreateIngredients db u names ds).1.tags = ds.tags := by
  induction names generalizing db ds with
  | nil => rfl
  | cons n rest ih =>
    rw [getOrCreateIngredients_cons]
    exact ih

theorem applyScalars_tags (d : Dataset) (p : DatasetPayload) :
    (applyScalars d p).tags = d.tags := rfl

theorem applyScalars_ingredients (d : Dataset) (p : DatasetPayload) :
    (applyScalars d p).ingredients = d.ingredients := rfl

theorem getOrCreateIngredients_ingredients_congr {names : List String} {db : DB} {u : Nat}
    {ds ds2 : Dataset} (h : ds.ingredients = ds2.ingredients) :
    (getOrCreateIngredients db u names ds).1.ingredients
      = (getOrCreateIngredients db u names ds2).1.ingredients := by
  induction names generalizing db ds ds2 with
  | nil => exact h
  | cons n rest ih =>
    rw [getOrCreateIngredients_cons, getOrCreateIngredients_cons]
    exact ih (by simp [h])

/-- C3: on every Dataset update — whatever the rest of the payload, the
two relation fields included — a supplied (possibly empty) tags (resp.
ingredients) list clears the association set and repopulates it from
scratch through get-or-create against the store the update has reached —
so the empty list yields zero associations — while an absent field leaves
the association set untouched. -/
theorem dataset_update_relation_semantics
    (db : DB) (u : Nat) (inst : Dataset)
    (ti : Option String) (tm : Option Nat) (pr : Option Int)
    (lk de : Option String) (l : List String)
    (tp ip : Option (List String)) :
    ((serializerUpdate db u inst ⟨ti, tm, pr, lk, de, none, ip⟩).1.tags = inst.tags) ∧
    ((serializerUpdate db u inst ⟨ti, tm, pr, lk, de, some l, ip⟩).1.tags
        = (getOrCreateTags db u l { inst with tags := [] }).1.tags) ∧
    ((serializerUpdate db u inst ⟨ti, tm, pr, lk, de, some [], ip⟩).1.tags = []) ∧
    ((serializerUpdate db u inst ⟨ti, tm, pr, lk, de, tp, none⟩).1.ingredients
        = inst.ingredients) ∧
    ((serializerUpdate db u inst ⟨ti, tm, pr, lk, de, tp, some l⟩).1.ingredients
        = (getOrCreateIngredients (tagsStepDB db u inst tp) u l
            { inst with ingredients := [] }).1.ingredients) ∧
    ((serializerUpdate db u inst ⟨ti, tm, pr, lk, de, tp, some [] ⟩).1.ingredients = []) := by
  have hing : ∀ l2 : List String,
      (serializerUpdate db u inst ⟨ti, tm, pr, lk, de, tp, some l2⟩).1.ingredients
        = (getOrCreateIngredients (tagsStepDB db u inst tp) u l2
            { inst with ingredients := [] }).1.ingredients := by
    intro l2
    cases tp with
    | none =>
        simp only [serializerUpdate, applyScalars_ingredients, tagsStepDB]
    | some lt =>
        simp only [serializerUpdate, applyScalars_ingredients, tagsStepDB]
        exact getOrCreateIngredients_ingredients_congr rfl
  refine ⟨?_, ?_, ?_, ?_, hing l, (hing []).trans rfl⟩
  · cases ip with
    | none => rfl
    | some l2 => simp [serializerUpdate, applyScalars_tags, getOrCreateIngredients_tags_eq]
  · cases ip with
    | none => rfl
    | some l2 => simp [serializerUpdate, applyScalars_tags, getOrCreateIngredients_tags_eq]
  · cases ip with
    | none => rfl
    | some l2 =>
        simp [serializerUpdate, applyScalars_tags, getOrCreateIngredients_tags_eq]
        rfl
  · cases tp with
    | none => rfl
    | some l2 => simp [serializerUpdate, applyScalars_ingredients, getOrCreateTags_ingredients_eq]

/-! ### Claim C10 -/

/-- C10: a `tags` or `ingredients` query parameter that is present but
equal to the empty string is treated exactly as if it were absent, both in
the queryset computation and in the full list endpoint: no filter, no
error, same result. -/
theorem empty_filter_param_like_absent (db : DB) (ru : Option Nat) (m : Method)
    (tsp isp : Option String) :
    datasetGetQueryset db ru m (some "") isp = datasetGetQueryset db ru m none isp ∧
    datasetGetQueryset db ru m tsp (some "") = datasetGetQueryset db ru m tsp none ∧
    datasetList db ru (some "") isp = datasetList db ru none isp ∧
    datasetList db ru tsp (some "") = datasetList db ru tsp none :=
  ⟨rfl, rfl, rfl, rfl⟩

/-! ### Claim C1 -/

/-- C1 evaluated on the code: with user 1 requesting user 2's resources in
`exDB`, update and delete of the Dataset, Tag and Ingredient all yield
not-found (never forbidden) and leave the store unchanged — but the
Dataset retrieve path returns the other user's resource with 200, because
`DatasetViewSet.get_queryset` skips the owner filter for every GET
request.  This contradicts the claim's retrieve part, and the repository's
own test suite (`test_dataset_list_limited_to_user`,
`test_recipe_api.py`) expects GET results limited to the requesting
user. -/
theorem cross_user_access_evaluation :
    datasetRetrieve exDB (some 1) 10 = (HStatus.ok200, some dsOfUser2) ∧
    HStatus.ok200 ≠ HStatus.notFound404 ∧
    datasetDestroy exDB (some 1) 10 = (HStatus.notFound404, exDB) ∧
    datasetUpdateReq exDB (some 1) 10 emptyPayload = (HStatus.notFound404, exDB) ∧
    tagDestroy exDB (some 1) 4 = (HStatus.notFound404, exDB) ∧
    tagUpdateReq exDB (some 1) 4 "renamed" = (HStatus.notFound404, exDB) ∧
    ingredientDestroy exDB (some 1) 7 = (HStatus.notFound404, exDB) := by
  decide

/-! ### Claim C5 -/

/-- C5 evaluated on the code: an unauthenticated (tokenless) GET on the
dataset list and detail endpoints succeeds with 200 — because
`DatasetViewSet.get_permissions` returns an empty permission list for GET
— while the tag/ingredient endpoints and dataset writes do return 401.
This contradicts the claim (and the repository's own `test_auth_required`,
which expects 401 for a tokenless GET on the dataset list). -/
theorem unauthenticated_get_evaluation :
    datasetList exDB none none none = (HStatus.ok200, some [dsOfUser2]) ∧
    datasetRetrieve exDB none 10 = (HStatus.ok200, some dsOfUser2) ∧
    HStatus.ok200 ≠ HStatus.unauthorized401 ∧
    tagList exDB none none = (HStatus.unauthorized401, none) ∧
    ingredientList exDB none none = (HStatus.unauthorized401, none) ∧
    datasetDestroy exDB none 10 = (HStatus.unauthorized401, exDB) := by
  decide

/-! ### Claim C4 -/

/-- C4 counterexample: the request `tags=abc` does not produce a client
error (400) — the uncaught `ValueError` from `int('abc')` surfaces as a
server error. -/
theorem malformed_filter_counterexample :
    datasetList exDB (some 1) (some "abc") none = (HStatus.serverError500, none) ∧
    HStatus.serverError500 ≠ HStatus.badRequest400 := by
  decide

/-- C4 (amended): whenever the `tags` or the `ingredients` parameter is
truthy and holds a segment that does not parse as an integer, the whole
request fails — never a silent skip, never an empty result — but as an
uncaught conversion exception surfaced as a server error (500), not as a
400 client error. -/
theorem malformed_filter_fails_request (db : DB) (ru : Option Nat)
    (tsp isp : Option String)
    (hbad : (truthyParam tsp = true ∧ paramsToInts (tsp.getD "") = none)
          ∨ (truthyParam isp = true ∧ paramsToInts (isp.getD "") = none)) :
    datasetList db ru tsp isp = (HStatus.serverError500, none) := by
  have hq : datasetFilteredQueryset db tsp isp = none := by
    unfold datasetFilteredQueryset
    rcases hbad with ⟨ht, hbt⟩ | ⟨hi, hbi⟩
    · simp [ht, hbt]
    · by_cases ht2 : truthyParam tsp = true
      · cases hpt : paramsToInts (tsp.getD "") with
        | none => simp [ht2, hpt]
        | some ids => simp [ht2, hpt, hi, hbi]
      · simp [ht2, hi, hbi]
  unfold datasetList
  simp only [datasetPermissionsOk, if_pos rfl, Bool.not_true, not_false_iff]
  unfold datasetGetQueryset
  rw [hq]
  simp

/-! ### Claim C6 -/

theorem mem_filterByTagIds {l : List Dataset} {ids : List Int} {d : Dataset} :
    d ∈ filterByTagIds l ids ↔ d ∈ l ∧ ∃ a ∈ d.tags, (a : Int) ∈ ids := by
  simp only [filterByTagIds, List.mem_flatMap, List.mem_map, List.mem_filter,
    List.elem_iff]
  aesop

theorem mem_filterByIngredientIds {l : List Dataset} {ids : List Int} {d : Dataset} :
    d ∈ filterByIngredientIds l ids ↔ d ∈ l ∧ ∃ a ∈ d.ingredients, (a : Int) ∈ ids := by
  simp only [filterByIngredientIds, List.mem_flatMap, List.mem_map, List.mem_filter,
    List.elem_iff]
  aesop

theorem mem_orderByIdDescDistinct {l : List Dataset} {d : Dataset} :
    d ∈ orderByIdDescDistinct l ↔ d ∈ l := by
  rw [orderByIdDescDistinct, (List.perm_insertionSort _ _).mem_iff, List.mem_dedup]

theorem mem_optFilterTags {l : List Dataset} {d : Dataset} (o : Option (List Int)) :
    d ∈ optFilterTags l o ↔ d ∈ l ∧ matchesOptParam d.tags o := by
  cases o with
  | none => simp [optFilterTags, matchesOptParam]
  | some ids => simp [optFilterTags, matchesOptParam, mem_filterByTagIds]

theorem mem_optFilterIngredients {l : List Dataset} {d : Dataset} (o : Option (List Int)) :
    d ∈ optFilterIngredients l o ↔ d ∈ l ∧ matchesOptParam d.ingredients o := by
  cases o with
  | none => simp [optFilterIngredients, matchesOptParam]
  | some ids => simp [optFilterIngredients, matchesOptParam, mem_filterByIngredientIds]

/-- On well-formed parameters the GET queryset is the ordered, distinct
form of the two optional join filters applied to the dataset table. -/
theorem datasetGetQueryset_GET_eq {db : DB} {ru : Option Nat}
    {tsp isp : Option String} {tids iids : Option (List Int)}
    (ht : parsedParam tsp tids) (hi : parsedParam isp iids) :
    datasetGetQueryset db ru Method.GET tsp isp
      = some (orderByIdDescDistinct
          (optFilterIngredients (optFilterTags db.datasets tids) iids)) := by
  cases tsp with
  | none =>
    cases tids with
    | some tl => exact absurd ht (by simp [parsedParam])
    | none =>
      cases isp with
      | none =>
        cases iids with
        | some il => exact absurd hi (by simp [parsedParam])
        | none => rfl
      | some s2 =>
        cases iids with
        | none => exact absurd hi (by simp [parsedParam])
        | some il =>
          obtain ⟨hne2, hp2⟩ : s2 ≠ "" ∧ paramsToInts s2 = some il := by
            simpa [parsedParam] using hi
          unfold datasetGetQueryset datasetFilteredQueryset
          simp [truthyParam, hne2, hp2, optFilterTags, optFilterIngredients]
  | some s =>
    cases tids with
    | none => exact absurd ht (by simp [parsedParam])
    | some tl =>
      obtain ⟨hne, hp⟩ : s ≠ "" ∧ paramsToInts s = some tl := by
        simpa [parsedParam] using ht
      cases isp with
      | none =>
        cases iids with
        | some il => exact absurd hi (by simp [parsedParam])
        | none =>
          unfold datasetGetQueryset datasetFilteredQueryset
          simp [truthyParam, hne, hp, optFilterTags, optFilterIngredients]
      | some s2 =>
        cases iids with
        | none => exact absurd hi (by simp [parsedParam])
        | some il =>
          obtain ⟨hne2, hp2⟩ : s2 ≠ "" ∧ paramsToInts s2 = some il := by
            simpa [parsedParam] using hi
          unfold datasetGetQueryset datasetFilteredQueryset
          simp [truthyParam, hne, hp, hne2, hp2, optFilterTags, optFilterIngredients]

/-- C6: for every Dataset list request with well-formed `tags` and/or
`ingredients` parameters, the result contains exactly the datasets whose
tag set (resp. ingredient set) intersects the parsed ID set; both
restrictions combine conjunctively, and a dataset matching neither filter
is excluded. -/
theorem dataset_list_id_filter_semantics (db : DB) (ru : Option Nat)
    (tsp isp : Option String) (tids iids : Option (List Int))
    (ht : parsedParam tsp tids) (hi : parsedParam isp iids) :
    ∃ res, datasetGetQueryset db ru Method.GET tsp isp = some res ∧
      ∀ d, d ∈ res ↔
        d ∈ db.datasets ∧ matchesOptParam d.tags tids ∧ matchesOptParam d.ingredients iids := by
  refine ⟨_, datasetGetQueryset_GET_eq ht hi, ?_⟩
  intro d
  rw [mem_orderByIdDescDistinct, mem_optFilterIngredients _, mem_optFilterTags _]
  tauto

/-- Witness for C6: filtering `exDB2` by `tags=1,2` keeps exactly the
datasets with an intersecting tag set. -/
theorem dataset_list_id_filter_semantics_witness :
    parsedParam (some "1,2") (some [1, 2]) ∧
    (∃ res, datasetGetQueryset exDB2 (some 1) Method.GET (some "1,2") none = some res ∧
       ∀ d, d ∈ res ↔ d ∈ exDB2.datasets ∧ matchesOptParam d.tags (some [1, 2]) ∧
         matchesOptParam d.ingredients none) := by
  have h1 : parsedParam (some "1,2") (some [1, 2]) := by
    simp only [parsedParam]
    exact ⟨by decide, by decide⟩
  have h2 : parsedParam (none : Option String) (none : Option (List Int)) := by
    simp [parsedParam]
  exact ⟨h1, dataset_list_id_filter_semantics exDB2 (some 1) (some "1,2") none
    (some [1, 2]) none h1 h2⟩

/-- Witness for the amended C4: the malformed value `abc` in the tags
position, and in the ingredients position next to a well-formed tags
parameter. -/
theorem malformed_filter_fails_request_witness :
    (truthyParam (some "abc") = true ∧ paramsToInts "abc" = none) ∧
    datasetList exDB2 (some 1) (some "abc") none = (HStatus.serverError500, none) ∧
    datasetList exDB2 (some 1) (some "1,2") (some "abc") = (HStatus.serverError500, none) :=
  ⟨⟨by decide, by decide⟩,
   malformed_filter_fails_request exDB2 (some 1) (some "abc") none
     (Or.inl ⟨by decide, by decide⟩),
   malformed_filter_fails_request exDB2 (some 1) (some "1,2") (some "abc")
     (Or.inr ⟨by decide, by decide⟩)⟩

/-! ### Claim C7 -/

theorem mem_tagsAssignedJoin {tags : List Tag} {datasets : List Dataset} {t : Tag} :
    t ∈ tagsAssignedJoin tags datasets ↔ t ∈ tags ∧ ∃ d ∈ datasets, t.id ∈ d.tags := by
  simp only [tagsAssignedJoin, List.mem_flatMap, List.mem_map, List.mem_filter]
  aesop

theorem mem_ingredientsAssignedJoin {ings : List Ingredient} {datasets : List Dataset}
    {t : Ingredient} :
    t ∈ ingredientsAssignedJoin ings datasets
      ↔ t ∈ ings ∧ ∃ d ∈ datasets, t.id ∈ d.ingredients := by
  simp only [ingredientsAssignedJoin, List.mem_flatMap, List.mem_map, List.mem_filter]
  aesop

theorem mem_tagOrderByNameDescDistinct {l : List Tag} {t : Tag} :
    t ∈ tagOrderByNameDescDistinct l ↔ t ∈ l := by
  rw [tagOrderByNameDescDistinct, (List.perm_insertionSort _ _).mem_iff, List.mem_dedup]

theorem mem_ingredientOrderByNameDescDistinct {l : List Ingredient} {t : Ingredient} :
    t ∈ ingredientOrderByNameDescDistinct l ↔ t ∈ l := by
  rw [ingredientOrderByNameDescDistinct, (List.perm_insertionSort _ _).mem_iff,
    List.mem_dedup]

theorem tagGetQueryset_eq {db : DB} {ru : Option Nat} {p : Option String} {k : Int}
    (hp : assignedOnlyInt p = some k) :
    tagGetQueryset db ru p
      = some (tagOrderByNameDescDistinct
          ((if k ≠ 0 then tagsAssignedJoin db.tags db.datasets else db.tags).filter
            (fun t => some t.userId == ru))) := by
  unfold tagGetQueryset
  rw [hp]
  rfl

theorem ingredientGetQueryset_eq {db : DB} {ru : Option Nat} {p : Option String} {k : Int}
    (hp : assignedOnlyInt p = some k) :
    ingredientGetQueryset db ru p
      = some (ingredientOrderByNameDescDistinct
          ((if k ≠ 0 then ingredientsAssignedJoin db.ingredients db.datasets
            else db.ingredients).filter (fun t => some t.userId == ru))) := by
  unfold ingredientGetQueryset
  rw [hp]
  rfl

/-- C7: on the Tag and Ingredient list querysets, an `assigned_only`
parameter parsing to a truthy integer restricts the result to entities
attached to at least one Dataset; an absent parameter defaults to 0, and a
falsy value applies no such restriction (only the owner scope). -/
theorem assigned_only_filter_semantics (db : DB) (u : Nat) (p : Option String)
    (k : Int) (hp : assignedOnlyInt p = some k) :
    assignedOnlyInt none = some 0 ∧
    (∃ res, tagGetQueryset db (some u) p = some res ∧
       ∀ t, t ∈ res ↔ t ∈ db.tags ∧ t.userId = u ∧
         (k ≠ 0 → ∃ d ∈ db.datasets, t.id ∈ d.tags)) ∧
    (∃ res, ingredientGetQueryset db (some u) p = some res ∧
       ∀ t, t ∈ res ↔ t ∈ db.ingredients ∧ t.userId = u ∧
         (k ≠ 0 → ∃ d ∈ db.datasets, t.id ∈ d.ingredients)) := by
  refine ⟨rfl, ⟨_, tagGetQueryset_eq hp, ?_⟩, ⟨_, ingredientGetQueryset_eq hp, ?_⟩⟩
  · intro t
    rw [mem_tagOrderByNameDescDistinct, List.mem_filter]
    by_cases hk : k = 0
    · subst hk
      simp [beq_iff_eq]
    · rw [if_pos hk]
      rw [mem_tagsAssignedJoin]
      simp only [beq_iff_eq, Option.some.injEq, hk, ne_eq, not_false_iff, forall_true_left]
      tauto
  · intro t
    rw [mem_ingredientOrderByNameDescDistinct, List.mem_filter]
    by_cases hk : k = 0
    · subst hk
      simp [beq_iff_eq]
    · rw [if_pos hk]
      rw [mem_ingredientsAssignedJoin]
      simp only [beq_iff_eq, Option.some.injEq, hk, ne_eq, not_false_iff, forall_true_left]
      tauto

/-- Witness for C7 at `assigned_only=1` on `exDB2`. -/
theorem assigned_only_filter_semantics_witness :
    assignedOnlyInt (some "1") = some 1 ∧
    (∃ res, tagGetQueryset exDB2 (some 1) (some "1") = some res ∧
       ∀ t, t ∈ res ↔ t ∈ exDB2.tags ∧ t.userId = 1 ∧
         ((1 : Int) ≠ 0 → ∃ d ∈ exDB2.datasets, t.id ∈ d.tags)) :=
  ⟨by decide, (assigned_only_filter_semantics exDB2 1 (some "1") 1 (by decide)).2.1⟩

/-! ### Claim C8 -/

theorem orderByIdDescDistinct_nodup (l : List Dataset) : (orderByIdDescDistinct l).Nodup := by
  rw [orderByIdDescDistinct]
  exact ((List.perm_insertionSort _ _).nodup_iff).mpr (List.nodup_dedup l)

theorem tagOrderByNameDescDistinct_nodup (l : List Tag) :
    (tagOrderByNameDescDistinct l).Nodup := by
  rw [tagOrderByNameDescDistinct]
  exact ((List.perm_insertionSort _ _).nodup_iff).mpr (List.nodup_dedup l)

theorem ingredientOrderByNameDescDistinct_nodup (l : List Ingredient) :
    (ingredientOrderByNameDescDistinct l).Nodup := by
  rw [ingredientOrderByNameDescDistinct]
  exact ((List.perm_insertionSort _ _).nodup_iff).mpr (List.nodup_dedup l)

theorem datasetGetQueryset_nodup (db : DB) (ru : Option Nat) (m : Method)
    (tsp isp : Option String) :
    ((datasetGetQueryset db ru m tsp isp).getD []).Nodup := by
  unfold datasetGetQueryset
  cases datasetFilteredQueryset db tsp isp with
  | none => simp
  | some q2 =>
    by_cases hm : m = Method.GET <;> simp [hm, orderByIdDescDistinct_nodup]

theorem tagGetQueryset_nodup (db : DB) (ru : Option Nat) (p : Option String) :
    ((tagGetQueryset db ru p).getD []).Nodup := by
  unfold tagGetQueryset
  cases h : assignedOnlyInt p with
  | none => simp [h]
  | some k => simp [h, tagOrderByNameDescDistinct_nodup]

theorem ingredientGetQueryset_nodup (db : DB) (ru : Option Nat) (p : Option String) :
    ((ingredientGetQueryset db ru p).getD []).Nodup := by
  unfold ingredientGetQueryset
  cases h : assignedOnlyInt p with
  | none => simp [h]
  | some k => simp [h, ingredientOrderByNameDescDistinct_nodup]

/-- C8: every list result computed through a many-to-many join — the
dataset list under ID filters and the tag/ingredient lists under
`assigned_only` — contains each matching entity exactly once, however many
join rows matched it. -/
theorem filtered_results_appear_once (db : DB) (ru : Option Nat)
    (tsp isp ap aq : Option String) :
    (∀ d ∈ (datasetGetQueryset db ru Method.GET tsp isp).getD [],
       ((datasetGetQueryset db ru Method.GET tsp isp).getD []).count d = 1) ∧
    (∀ t ∈ (tagGetQueryset db ru ap).getD [],
       ((tagGetQueryset db ru ap).getD []).count t = 1) ∧
    (∀ t ∈ (ingredientGetQueryset db ru aq).getD [],
       ((ingredientGetQueryset db ru aq).getD []).count t = 1) :=
  ⟨fun _ hd => List.count_eq_one_of_mem (datasetGetQueryset_nodup db ru Method.GET tsp isp) hd,
   fun _ ht => List.count_eq_one_of_mem (tagGetQueryset_nodup db ru ap) ht,
   fun _ ht => List.count_eq_one_of_mem (ingredientGetQueryset_nodup db ru aq) ht⟩

/-- Witness for C8: in `exDB2` tag 1 is attached to two datasets, yet it
appears exactly once in the `assigned_only=1` tag list; a dataset matched
by two tag IDs appears exactly once in the filtered dataset list. -/
theorem filtered_results_appear_once_witness :
    ((tagGetQueryset exDB2 (some 1) (some "1")).getD []).count ⟨1, 1, "Vegan"⟩ = 1 ∧
    ((datasetGetQueryset exDB2 (some 1) Method.GET (some "1,2") none).getD []).count exDs2 = 1 :=
  ⟨(filtered_results_appear_once exDB2 (some 1) (some "1,2") none (some "1") (some "1")).2.1
     ⟨1, 1, "Vegan"⟩ (by decide),
   (filtered_results_appear_once exDB2 (some 1) (some "1,2") none (some "1") (some "1")).1
     exDs2 (by decide)⟩

/-! ### Claim C9 -/

/-- C9: for an image upload against an accessible Dataset, an undecodable
payload is rejected with 400 and the store is returned untouched (no
partial write); a decodable payload succeeds with 200, a response carrying
the dataset id and the stored image reference, and the saved row's image
field set to the stored payload. -/
theorem upload_image_semantics (dec : String → Bool) (db : DB) (u : Nat)
    (pk : Nat) (payload : String) (d : Dataset)
    (hfound : datasetGetObject db (some u) Method.POST pk = some (some d)) :
    (dec payload = false →
       uploadImage dec db (some u) pk payload = (HStatus.badRequest400, none, db)) ∧
    (dec payload = true →
       uploadImage dec db (some u) pk payload
         = (HStatus.ok200, some (d.id, some payload),
            saveDataset db { d with image := some payload })) := by
  constructor <;> intro hdec <;> unfold uploadImage <;>
    simp [datasetPermissionsOk, hfound, hdec]

/-- Witness for C9 on `exDB` with a sample decodability test. -/
theorem upload_image_semantics_witness :
    datasetGetObject exDB (some 2) Method.POST 10 = some (some dsOfUser2) ∧
    uploadImage exDecodable exDB (some 2) 10 "bad-bytes" = (HStatus.badRequest400, none, exDB) ∧
    uploadImage exDecodable exDB (some 2) 10 "img-bytes"
      = (HStatus.ok200, some (dsOfUser2.id, some "img-bytes"),
         saveDataset exDB { dsOfUser2 with image := some "img-bytes" }) :=
  ⟨by decide,
   (upload_image_semantics exDecodable exDB 2 10 "bad-bytes" dsOfUser2 (by decide)).1 (by decide),
   (upload_image_semantics exDecodable exDB 2 10 "img-bytes" dsOfUser2 (by decide)).2 (by decide)⟩

end Mlmond
